import Mathlib

/-!
# Verification of the lgtm Slack→GitHub approval bot

Shallow embedding of the message-to-action pipeline of the `lgtm`
repository: the pull-request reference extractor (`matcher.go`), the
approval engine with retry (`github.go`), and the per-reference approval
processing with its feedback reactions (`slack.go`).  Machine integers are
modelled as `Int`/`Nat` (Go `int` is 64-bit; `strconv.Atoi` range errors
are modelled explicitly), strings as Lean `String` over `List Char`, and
fallible operations as `Option`.
-/

namespace Lgtm

/-! ## Character classes and low-level string helpers

Go regexp character classes used by `matcher.go`:
`[[:space:]]` is `[\t\n\v\f\r ]` and Perl `\s` is `[\t\n\f\r ]` (no
vertical tab). -/

/-- Go POSIX `[[:space:]]` class: tab, newline, vertical tab, form feed,
carriage return, space. -/
def goSpace (c : Char) : Bool :=
  c = ' ' || c = '\t' || c = '\n' || c = '\x0b' || c = '\x0c' || c = '\r'

/-- Go Perl `\s` class: tab, newline, form feed, carriage return, space
(no vertical tab). -/
def goPerlSpace (c : Char) : Bool :=
  c = ' ' || c = '\t' || c = '\n' || c = '\x0c' || c = '\r'

/-- Characters allowed inside the URL regexp's `[^[:space:]/]` class. -/
def nonSpaceSlash (c : Char) : Bool :=
  !(goSpace c) && c != '/'

/-- Maximal run of characters satisfying `p` at the front of the list,
with the remainder: the deterministic reading of a greedy `X+`/`X*`
whose class is disjoint from whatever follows it in the pattern. -/
def takeRun (p : Char → Bool) : List Char → (List Char × List Char)
  | [] => ([], [])
  | c :: cs =>
    if p c then
      let r := takeRun p cs
      (c :: r.1, r.2)
    else ([], c :: cs)

/-- Strip a literal from the front of a list, returning the remainder;
`none` when the literal is not there. -/
def stripLit : List Char → List Char → Option (List Char)
  | [], l => some l
  | _ :: _, [] => none
  | c :: cs, d :: ds => if c = d then stripLit cs ds else none

/-- Does `needle` occur at the front of `hay`? -/
def leadsWith : List Char → List Char → Bool
  | [], _ => true
  | _ :: _, [] => false
  | a :: as, b :: bs => a == b && leadsWith as bs

/-- Does `needle` occur anywhere inside the list?  (Model of Go
`strings.Contains`; an empty needle always occurs.) -/
def occursIn (needle : List Char) : List Char → Bool
  | [] => needle.isEmpty
  | c :: tl => leadsWith needle (c :: tl) || occursIn needle tl

/-- Model of Go `strings.Contains s sub`. -/
def containsSubstr (s sub : String) : Bool :=
  occursIn sub.data s.data

/-- ASCII-case-insensitive string equality: model of Go
`strings.EqualFold` restricted to ASCII letters (the only host it is
applied to here is `github.com`). -/
def eqFold (a b : String) : Bool :=
  a.data.map Char.toLower == b.data.map Char.toLower

/-- Digit run to its numeric value. -/
def digitsToNat (ds : List Char) : Nat :=
  ds.foldl (fun a c => a * 10 + (c.toNat - '0'.toNat)) 0

/-- Model of Go `strconv.Atoi` on the all-digit, sign-free strings
produced by the regexp captures: the numeric value, or `none` (an
`ErrRange` error) when the value does not fit a 64-bit `int`. -/
def goAtoi (ds : List Char) : Option Int :=
  if ds.isEmpty then none
  else if digitsToNat ds ≤ 9223372036854775807 then some (Int.ofNat (digitsToNat ds))
  else none

/-! ## Model of `net/url.Parse` as used by `validateGitHubURL`

`validateGitHubURL` (matcher.go) only consults the `Scheme` and `Host`
fields of the parsed URL.  The model covers absolute URLs of the shape
`scheme://authority/...` — the only shape the PR-URL regexp can produce —
and mirrors `url.Parse`'s rejection of ASCII control characters and of
invalid percent escapes; other shapes are mapped to a parse error. -/

/-- The two URL fields `validateGitHubURL` reads. -/
structure GoURL where
  scheme : String
  host : String
deriving Repr, DecidableEq

/-- ASCII control characters, rejected anywhere in a URL by `url.Parse`. -/
def isCtlChar (c : Char) : Bool :=
  c.toNat < 0x20 || c.toNat == 0x7f

/-- Hexadecimal digit, as accepted after `%` by `url.Parse`. -/
def isHexDigitChar (c : Char) : Bool :=
  c.isDigit || ('a' ≤ c && c ≤ 'f') || ('A' ≤ c && c ≤ 'F')

/-- Every `%` is followed by two hex digits (`url.Parse` errors with
`invalid URL escape` otherwise). -/
def validEscapes : List Char → Bool
  | [] => true
  | '%' :: a :: b :: rest => isHexDigitChar a && isHexDigitChar b && validEscapes rest
  | '%' :: _ => false
  | _ :: rest => validEscapes rest

/-- Characters permitted in a scheme (`[a-zA-Z][a-zA-Z0-9+-.]*`). -/
def isSchemeChar (c : Char) : Bool :=
  c.isAlpha || c.isDigit || c = '+' || c = '-' || c = '.'

/-- Split a list at the first `':'`: the part before it and the
remainder starting at the `':'` (empty when there is none). -/
def takeUntilColon : List Char → (List Char × List Char)
  | [] => ([], [])
  | c :: cs =>
    if c = ':' then ([], c :: cs)
    else
      let p := takeUntilColon cs
      (c :: p.1, p.2)

/-- The authority component: everything up to the first `'/'`, `'?'` or
`'#'`. -/
def takeAuthority : List Char → List Char
  | [] => []
  | c :: cs => if c = '/' || c = '?' || c = '#' then [] else c :: takeAuthority cs

/-- The host part of an authority: `url.Parse` strips the userinfo before
the last `'@'`. -/
def afterLastAt (l : List Char) : List Char :=
  l.foldl (fun acc c => if c = '@' then [] else acc ++ [c]) []

/-- Is the first character an ASCII letter (the scheme must start with
one)? -/
def headIsAlpha : List Char → Bool
  | [] => false
  | c :: _ => c.isAlpha

/-- The scheme component: nonempty, scheme characters only, starting
with a letter; `url.Parse` lowercases it. -/
def mkScheme (pre : List Char) : Option String :=
  if !pre.isEmpty && pre.all isSchemeChar && headIsAlpha pre then
    some (String.mk (pre.map Char.toLower))
  else none

/-- Scheme/host extraction on a control- and escape-clean URL: split the
scheme at the first `':'`, require `"//"`, take the authority up to the
first `/`, `?` or `#` and strip any userinfo from it. -/
def urlParseChecked (l : List Char) : Option GoURL :=
  match takeUntilColon l with
  | (pre, ':' :: '/' :: '/' :: r2) =>
    match mkScheme pre with
    | none => none
    | some sch => some ⟨sch, String.mk (afterLastAt (takeAuthority r2))⟩
  | _ => none

/-- Model of `net/url.Parse` restricted to the `Scheme` and `Host`
fields, on absolute `scheme://...` URLs: reject control characters and
invalid percent escapes, then extract scheme and host. -/
def urlParse (s : String) : Option GoURL :=
  if s.data.any isCtlChar then none
  else if validEscapes s.data then urlParseChecked s.data
  else none

/-! ## `matcher.go`: PR reference extraction -/

/-- `PRReference` (matcher.go): a GitHub pull request reference.  Bare
number matches leave owner, repository and URL empty. -/
structure PRReference where
  owner : String := ""
  repository : String := ""
  number : Int := 0
  url : String := ""
deriving Repr, DecidableEq

/-- `validateGitHubURL` (matcher.go): parse the URL, require scheme
`https`.  NOTE: on a host that does not case-fold to `github.com` the
source executes `return err` where `err` is the `nil` error from the
earlier successful parse, so that branch also reports success; the model
mirrors this. -/
def validateGitHubURL (urlStr : String) : Option String :=
  match urlParse urlStr with
  | none => some "parse error"
  | some u =>
    if u.scheme ≠ "https" then some "only HTTPS URLs are supported"
    else if !(eqFold u.host "github.com") then none
    else none

/-- One submatch of the PR-URL regexp
`https?://github\.com/([^[:space:]/]+)/([^[:space:]/]+)/pull/([0-9]+)`:
the full match and the three capture groups. -/
structure URLMatch where
  full : List Char
  owner : List Char
  repo : List Char
  digits : List Char
deriving Repr, DecidableEq

/-- Match of the URL pattern after the scheme part: `sPart` is `[]` or
`['s']` as chosen for the optional `s`.  Greedy `[^[:space:]/]+` runs
followed by literals outside the class are deterministic maximal runs. -/
def matchAfterScheme (sPart r2 : List Char) : Option (URLMatch × List Char) :=
  match takeRun nonSpaceSlash r2 with
  | ([], _) => none
  | (o1 :: ow, afterOwner) =>
    match afterOwner with
    | '/' :: r3 =>
      match takeRun nonSpaceSlash r3 with
      | ([], _) => none
      | (p1 :: rp, afterRepo) =>
        match stripLit "/pull/".data afterRepo with
        | none => none
        | some r4 =>
          match takeRun Char.isDigit r4 with
          | ([], _) => none
          | (d1 :: dg, rest) =>
            some (⟨"http".data ++ sPart ++ "://github.com/".data ++
                    ((o1 :: ow) ++ '/' :: ((p1 :: rp) ++
                      ("/pull/".data ++ (d1 :: dg)))),
                   o1 :: ow, p1 :: rp, d1 :: dg⟩, rest)
    | _ => none

/-- Attempt to match the PR-URL pattern at the head of the list,
returning the match and the remainder after it.  The optional `s` of
`https?` is tried greedily with backtracking into the following
literal, as a backtracking search over the pattern would. -/
def matchPRURL (l : List Char) : Option (URLMatch × List Char) :=
  match stripLit "http".data l with
  | none => none
  | some r1 =>
    match r1 with
    | 's' :: r1s =>
      match stripLit "://github.com/".data r1s with
      | some r2 => matchAfterScheme ['s'] r2
      | none =>
        match stripLit "://github.com/".data r1 with
        | some r2 => matchAfterScheme [] r2
        | none => none
    | _ =>
      match stripLit "://github.com/".data r1 with
      | some r2 => matchAfterScheme [] r2
      | none => none

/-- All successive non-overlapping leftmost matches of the PR-URL
pattern, as `FindAllStringSubmatch` returns them.  `fuel` bounds the
scan; `text.length + 1` is always enough since every step consumes at
least one character. -/
def findAllURLMatches : Nat → List Char → List URLMatch
  | 0, _ => []
  | _ + 1, [] => []
  | fuel + 1, c :: cs =>
    match matchPRURL (c :: cs) with
    | some (m, rest) => m :: findAllURLMatches fuel rest
    | none => findAllURLMatches fuel cs

/-- Attempt to match the bare-number pattern `(?:#|PR-?)\s*(\d+)` at the
head of the list, returning the capture (the digit run) and the
remainder after the whole match.  The `-?` is greedy; when taking the
`-` fails, the backtracked alternative without it fails as well, since
`\s*` cannot consume the `-`. -/
def matchBareRef : List Char → Option (List Char × List Char)
  | '#' :: r1 =>
    let w := takeRun goPerlSpace r1
    let dg := takeRun Char.isDigit w.2
    if dg.1.isEmpty then none else some (dg.1, dg.2)
  | 'P' :: 'R' :: r1 =>
    let r2 := match r1 with
      | '-' :: r1s => r1s
      | _ => r1
    let w := takeRun goPerlSpace r2
    let dg := takeRun Char.isDigit w.2
    if dg.1.isEmpty then none else some (dg.1, dg.2)
  | _ => none

/-- All successive non-overlapping leftmost matches of the bare-number
pattern (capture group 1 of each). -/
def findAllBareMatches : Nat → List Char → List (List Char)
  | 0, _ => []
  | _ + 1, [] => []
  | fuel + 1, c :: cs =>
    match matchBareRef (c :: cs) with
    | some (dg, rest) => dg :: findAllBareMatches fuel rest
    | none => findAllBareMatches fuel cs

/-- The loop over `urlMatches` in `ExtractPRReferences`: parse the
number, validate the URL, append a fully populated reference; failures
skip the match. -/
def processURLMatches (ms : List URLMatch) (refs0 : List PRReference) :
    List PRReference :=
  ms.foldl (fun refs m =>
    match goAtoi m.digits with
    | none => refs
    | some n =>
      match validateGitHubURL (String.mk m.full) with
      | some _ => refs
      | none =>
        refs ++ [⟨String.mk m.owner, String.mk m.repo, n, String.mk m.full⟩])
    refs0

/-- The loop over `numberMatches` in `ExtractPRReferences`: parse the
number and append a number-only reference unless any already-collected
reference (URL-derived or a previous bare one) carries the same
number. -/
def processBareMatches (ds : List (List Char)) (refs0 : List PRReference) :
    List PRReference :=
  ds.foldl (fun refs d =>
    match goAtoi d with
    | none => refs
    | some n =>
      if refs.any (fun r => r.number == n) then refs
      else refs ++ [{ number := n }])
    refs0

/-- `ExtractPRReferences` (matcher.go): URL matches first, then bare
number matches filtered against the collected references. -/
def ExtractPRReferences (text : String) : List PRReference :=
  let l := text.data
  let refs1 := processURLMatches (findAllURLMatches (l.length + 1) l) []
  processBareMatches (findAllBareMatches (l.length + 1) l) refs1

/-! ## `github.go`: validation and approval with retry

The GitHub API is an external capability; its behaviour is abstracted as
the outcome each call would produce.  `ValidatePRReference` performs one
`PullRequests.Get`, `ApprovePR` one `PullRequests.CreateReview`. -/

/-- Outcome of the `PullRequests.Get` call inside `ValidatePRReference`:
either the pull request with the two fields the function reads, or one
of the error shapes it distinguishes. -/
inductive PRLookup where
  | found (state : String) (merged : Bool)
  | notFound
  | permissionDenied
  | otherErr (msg : String)
deriving Repr, DecidableEq

/-- `ValidatePRReference` (github.go): `none` when the PR exists, is
open and not merged; otherwise the error message the source builds. -/
def ValidatePRReference (owner repo : String) (prNumber : Int)
    (lk : PRLookup) : Option String :=
  match lk with
  | .notFound => some s!"PR #{prNumber} not found in {owner}/{repo}"
  | .permissionDenied =>
      some s!"insufficient permissions to access PR #{prNumber} in {owner}/{repo}"
  | .otherErr msg => some s!"failed to get PR #{prNumber}: {msg}"
  | .found state merged =>
    if state ≠ "open" then some s!"PR #{prNumber} is {state} and cannot be approved"
    else if merged then some s!"PR #{prNumber} is already merged"
    else none

/-- Outcome of the `PullRequests.CreateReview` call inside `ApprovePR`:
a review id on success, or an error message together with the HTTP
status code of the response when one is available. -/
inductive ReviewOutcome where
  | success (reviewID : Int)
  | failure (errMsg : String) (status : Option Nat)
deriving Repr, DecidableEq

/-- `ApprovalResult` (github.go), minus the request/timestamp fields no
claim observes. -/
structure ApprovalResult where
  success : Bool := false
  reviewID : Int := 0
  error : String := ""
  retryAttempts : Nat := 0
deriving Repr, DecidableEq

/-- `ApprovePR` (github.go): returns the result paired with the returned
Go `error`.  Both source paths end in `return result, nil`, so the
second component is always `none`: API failures are reported inside the
result. -/
def ApprovePR (owner repo : String) (prNumber : Int) (out : ReviewOutcome) :
    ApprovalResult × Option String :=
  match out with
  | .success rid => ({ success := true, reviewID := rid }, none)
  | .failure msg status =>
    let err : String :=
      match status with
      | some 404 => s!"PR #{prNumber} not found in {owner}/{repo}"
      | some 403 => s!"insufficient permissions to approve PR #{prNumber}"
      | some 422 => s!"PR #{prNumber} cannot be approved (already merged or closed)"
      | _ => s!"failed to approve PR #{prNumber}: {msg}"
    ({ success := false, error := err }, none)

/-- `isPermanentError` (github.go): the six substrings that mark an
error as not worth retrying. -/
def permanentErrors : List String :=
  ["not found", "insufficient permissions", "already merged",
   "already closed", "invalid_auth", "Bad credentials"]

/-- `isPermanentError` (github.go). -/
def isPermanentError (errorMsg : String) : Bool :=
  permanentErrors.any (fun p => containsSubstr errorMsg p)

/-- Result of `ApprovePRWithRetry` as seen by its caller: `(result, nil)`,
the cancellation `(nil, ctx.Err())`, or the final
`(nil, "approval failed after 3 attempts: ...")` branch. -/
inductive RetryOutcome where
  | ok (r : ApprovalResult)
  | cancelled
  | exhausted (lastErr : Option String)
deriving Repr, DecidableEq

/-- `maxRetries` (github.go). -/
def maxRetries : Nat := 3

/-- The retry loop of `ApprovePRWithRetry` (github.go), together with
the number of `ApprovePR` calls it makes.  `outcomes i` is the API
outcome of attempt `i`; `cancelDuringWait i` whether the context is
cancelled during the backoff wait that precedes attempt `i` (i ≥ 1).
`fuel` is the number of loop iterations left, so the loop starts at
`fuel = maxRetries`, `attempt = 0` and exits when `fuel = 0`. -/
def retryLoop (owner repo : String) (prNumber : Int)
    (outcomes : Nat → ReviewOutcome) (cancelDuringWait : Nat → Bool) :
    Nat → Nat → Option ApprovalResult → Option String → RetryOutcome × Nat
  | 0, _, lastResult, lastErr =>
    match lastResult with
    | some r => (.ok { r with retryAttempts := maxRetries }, 0)
    | none => (.exhausted lastErr, 0)
  | fuel + 1, attempt, _lastResult, _lastErr =>
    if decide (attempt > 0) && cancelDuringWait attempt then (.cancelled, 0)
    else
      let res := ApprovePR owner repo prNumber (outcomes attempt)
      match res.2 with
      | some e =>
        -- `if err != nil { lastErr = err; lastResult = result; continue }`
        let rec1 := retryLoop owner repo prNumber outcomes cancelDuringWait
          fuel (attempt + 1) (some res.1) (some e)
        (rec1.1, rec1.2 + 1)
      | none =>
        if res.1.success || isPermanentError res.1.error then
          (.ok (if res.1.retryAttempts == 0
                then { res.1 with retryAttempts := attempt } else res.1), 1)
        else
          let rec1 := retryLoop owner repo prNumber outcomes cancelDuringWait
            fuel (attempt + 1) (some res.1)
            (some s!"approval failed: {res.1.error}")
          (rec1.1, rec1.2 + 1)

/-- `ApprovePRWithRetry` (github.go): the retry loop from attempt 0,
paired with the number of approval attempts actually made. -/
def ApprovePRWithRetry (owner repo : String) (prNumber : Int)
    (outcomes : Nat → ReviewOutcome) (cancelDuringWait : Nat → Bool) :
    RetryOutcome × Nat :=
  retryLoop owner repo prNumber outcomes cancelDuringWait maxRetries 0 none none

/-! ## `slack.go`: per-reference approval processing and reactions -/

/-- The four feedback phases of the spec's reaction vocabulary. -/
inductive ReactionKind where
  | processingStarted
  | approvalSucceeded
  | approvalFailed
  | noReferencesFound
deriving Repr, DecidableEq

/-- The emoji symbol `slack.go` passes to `addReaction` for each phase:
`"eyes"` at slack.go:198, `"white_check_mark"` at slack.go:256, `"x"` at
slack.go:261 (approval failed) and `"x"` at slack.go:191 (no PR
references found). -/
def reactionEmoji : ReactionKind → String
  | .processingStarted => "eyes"
  | .approvalSucceeded => "white_check_mark"
  | .approvalFailed => "x"
  | .noReferencesFound => "x"

/-- Behaviour of the GitHub capability for one approval request: the
lookup that validation sees, the review outcomes per attempt, and
cancellation during the backoff waits. -/
structure GitHubBehavior where
  lookup : PRLookup
  reviews : Nat → ReviewOutcome
  cancelDuringWait : Nat → Bool

/-- What one run of `processApproval` did: how often it called the
validation and approval-submission capabilities, and which reaction (if
any) it applied to the source message. -/
structure ProcessTrace where
  validationCalls : Nat
  approvalAttempts : Nat
  reaction : Option String
deriving Repr, DecidableEq

/-- `processApproval` (slack.go): validate once; on a validation error
log and return (no approval attempt, no reaction).  Otherwise run
`ApprovePRWithRetry`; on a returned error log and return (no reaction);
on a result react with `white_check_mark` or `x` according to
`result.Success`. -/
def processApproval (owner repo : String) (prNumber : Int)
    (b : GitHubBehavior) : ProcessTrace :=
  match ValidatePRReference owner repo prNumber b.lookup with
  | some _ => { validationCalls := 1, approvalAttempts := 0, reaction := none }
  | none =>
    let r := ApprovePRWithRetry owner repo prNumber b.reviews b.cancelDuringWait
    match r.1 with
    | .ok res =>
      { validationCalls := 1, approvalAttempts := r.2,
        reaction := some (if res.success then "white_check_mark" else "x") }
    | .cancelled =>
      { validationCalls := 1, approvalAttempts := r.2, reaction := none }
    | .exhausted _ =>
      { validationCalls := 1, approvalAttempts := r.2, reaction := none }

/-- Structure of a successful URL-pattern match: the full match is the
scheme variant picked for the optional `s`, followed by the three
nonempty capture groups. -/
def GoodMatch (m : URLMatch) : Prop :=
  (m.full = "http://github.com/".data ++
      (m.owner ++ '/' :: (m.repo ++ ("/pull/".data ++ m.digits))) ∨
   m.full = "https://github.com/".data ++
      (m.owner ++ '/' :: (m.repo ++ ("/pull/".data ++ m.digits)))) ∧
  m.owner ≠ [] ∧ m.repo ≠ []

/-! ## Helper lemmas -/

theorem data_mk (l : List Char) : (String.mk l).data = l := rfl

/-- Both return paths of `ApprovePR` end in `return result, nil`. -/
theorem approvePR_snd_eq_none (owner repo : String) (prNumber : Int)
    (out : ReviewOutcome) : (ApprovePR owner repo prNumber out).2 = none := by
  cases out <;> rfl

theorem goAtoi_nonneg {d : List Char} {n : Int} (h : goAtoi d = some n) :
    0 ≤ n := by
  unfold goAtoi at h
  split at h
  · exact Option.noConfusion h
  · split at h
    · injection h with h
      rw [← h]
      exact Int.ofNat_nonneg _
    · exact Option.noConfusion h

theorem string_mk_ne_empty {l : List Char} (h : l ≠ []) : String.mk l ≠ "" := by
  intro h2
  exact h (congrArg String.data h2)

/-- Invariant carried through the bare-number merge loop. -/
theorem processBareMatches_mem (P : PRReference → Prop) :
    ∀ (ds : List (List Char)) (refs0 : List PRReference),
      (∀ r ∈ refs0, P r) →
      (∀ (d : List Char) (n : Int), goAtoi d = some n → P { number := n }) →
      ∀ r ∈ processBareMatches ds refs0, P r := by
  intro ds
  induction ds with
  | nil => exact fun refs0 h0 _ r hr => h0 r hr
  | cons d ds ih =>
    intro refs0 h0 hnew r hr
    have hr' : r ∈ processBareMatches ds
        (match goAtoi d with
         | none => refs0
         | some n =>
           if refs0.any (fun r => r.number == n) then refs0
           else refs0 ++ [{ number := n }]) := hr
    refine ih _ ?_ hnew r hr'
    rcases hA : goAtoi d with _ | n
    · simpa [hA] using h0
    · simp only [hA]
      split
      · exact h0
      · intro r' hr''
        rcases List.mem_append.mp hr'' with h | h
        · exact h0 r' h
        · rcases List.mem_singleton.mp h with rfl
          exact hnew d n hA

/-- Invariant carried through the URL-match loop. -/
theorem processURLMatches_mem (P : PRReference → Prop) :
    ∀ (ms : List URLMatch) (refs0 : List PRReference),
      (∀ r ∈ refs0, P r) →
      (∀ m ∈ ms, ∀ n : Int, goAtoi m.digits = some n →
        validateGitHubURL (String.mk m.full) = none →
        P ⟨String.mk m.owner, String.mk m.repo, n, String.mk m.full⟩) →
      ∀ r ∈ processURLMatches ms refs0, P r := by
  intro ms
  induction ms with
  | nil => exact fun refs0 h0 _ r hr => h0 r hr
  | cons m ms ih =>
    intro refs0 h0 hnew r hr
    have hr' : r ∈ processURLMatches ms
        (match goAtoi m.digits with
         | none => refs0
         | some n =>
           match validateGitHubURL (String.mk m.full) with
           | some _ => refs0
           | none =>
             refs0 ++ [⟨String.mk m.owner, String.mk m.repo, n, String.mk m.full⟩]) := hr
    refine ih _ ?_ (fun m' hm' => hnew m' (List.mem_cons_of_mem m hm')) r hr'
    rcases hA : goAtoi m.digits with _ | n
    · simpa [hA] using h0
    · simp only [hA]
      rcases hV : validateGitHubURL (String.mk m.full) with _ | e
      · intro r' hr''
        rcases List.mem_append.mp hr'' with h | h
        · exact h0 r' h
        · rcases List.mem_singleton.mp h with rfl
          exact hnew m (List.mem_cons_self m ms) n hA hV
      · exact h0

theorem matchAfterScheme_shape {sPart r2 : List Char} {m : URLMatch}
    {rest : List Char} (h : matchAfterScheme sPart r2 = some (m, rest)) :
    m.full = "http".data ++ (sPart ++ ("://github.com/".data ++
      (m.owner ++ '/' :: (m.repo ++ ("/pull/".data ++ m.digits))))) ∧
    m.owner ≠ [] ∧ m.repo ≠ [] := by
  unfold matchAfterScheme at h
  split at h
  · exact Option.noConfusion h
  · split at h
    · split at h
      · exact Option.noConfusion h
      · split at h
        · exact Option.noConfusion h
        · split at h
          · exact Option.noConfusion h
          · injection h with h
            injection h with hm hrest
            subst hm
            exact ⟨by simp [List.append_assoc], by simp, by simp⟩
    · exact Option.noConfusion h

theorem http_concat (X : List Char) :
    "http".data ++ (([] : List Char) ++ ("://github.com/".data ++ X)) =
      "http://github.com/".data ++ X := rfl

theorem https_concat (X : List Char) :
    "http".data ++ (['s'] ++ ("://github.com/".data ++ X)) =
      "https://github.com/".data ++ X := rfl

theorem matchPRURL_good {l : List Char} {m : URLMatch} {rest : List Char}
    (h : matchPRURL l = some (m, rest)) : GoodMatch m := by
  unfold matchPRURL at h
  split at h
  · exact Option.noConfusion h
  · rename_i r1 hstrip
    split at h
    · rename_i r1s
      split at h
      · rename_i r2 h2
        obtain ⟨hfull, ho, hr⟩ := matchAfterScheme_shape h
        exact ⟨Or.inr (by rw [hfull, https_concat]), ho, hr⟩
      · split at h
        · rename_i r2 h2
          obtain ⟨hfull, ho, hr⟩ := matchAfterScheme_shape h
          exact ⟨Or.inl (by rw [hfull, http_concat]), ho, hr⟩
        · exact Option.noConfusion h
    · split at h
      · rename_i r2 h2
        obtain ⟨hfull, ho, hr⟩ := matchAfterScheme_shape h
        exact ⟨Or.inl (by rw [hfull, http_concat]), ho, hr⟩
      · exact Option.noConfusion h

theorem findAllURLMatches_good :
    ∀ (fuel : Nat) (l : List Char) (m : URLMatch),
      m ∈ findAllURLMatches fuel l → GoodMatch m := by
  intro fuel
  induction fuel with
  | zero => intro l m hm; simp [findAllURLMatches] at hm
  | succ fuel ih =>
    intro l m hm
    cases l with
    | nil => simp [findAllURLMatches] at hm
    | cons c cs =>
      rw [findAllURLMatches] at hm
      split at hm
      · rename_i m' rest hmatch
        rcases List.mem_cons.mp hm with rfl | hm'
        · exact matchPRURL_good hmatch
        · exact ih rest m hm'
      · exact ih cs m hm

theorem takeUntilColon_http (X : List Char) :
    takeUntilColon ("http://github.com/".data ++ X) =
      ("http".data, ':' :: ('/' :: ('/' :: ("github.com/".data ++ X)))) := rfl

/-- On a control- and escape-clean `http://github.com/...` string the
parser reports scheme `http` and host `github.com`. -/
theorem urlParseChecked_http (X : List Char) :
    urlParseChecked ("http://github.com/".data ++ X) =
      some ⟨"http", "github.com"⟩ := rfl

/-- When `url.Parse` succeeds on an `http://github.com/...` string, the
scheme it reports is `"http"`. -/
theorem urlParse_http_scheme {X : List Char} {u : GoURL}
    (h : urlParse (String.mk ("http://github.com/".data ++ X)) = some u) :
    u.scheme = "http" := by
  unfold urlParse at h
  rw [data_mk] at h
  split at h
  · exact Option.noConfusion h
  · split at h
    · rw [urlParseChecked_http] at h
      injection h with h
      rw [← h]
    · exact Option.noConfusion h

/-- The scheme of a parsed `http://github.com/...` URL is `http`, never
`https`, so `validateGitHubURL` rejects it (either as a parse error or
as a non-HTTPS scheme). -/
theorem validate_http_ne_none (X : List Char) :
    validateGitHubURL (String.mk ("http://github.com/".data ++ X)) ≠ none := by
  intro h
  unfold validateGitHubURL at h
  split at h
  · exact Option.noConfusion h
  · rename_i u hu
    rw [urlParse_http_scheme hu] at h
    rw [if_pos (show ("http" : String) ≠ "https" by decide)] at h
    exact Option.noConfusion h

/-! ## Claim C1 -/

/-- C1: if validation of the target pull request fails (merged, not
found, not open, or access denied), `processApproval` makes zero
approval-submission attempts for that reference; validation is called
exactly once (not retried) and precedes any approval attempt. -/
theorem validation_failure_prevents_approval
    (owner repo : String) (prNumber : Int) (b : GitHubBehavior)
    (h : (ValidatePRReference owner repo prNumber b.lookup).isSome = true) :
    (processApproval owner repo prNumber b).approvalAttempts = 0 ∧
    (processApproval owner repo prNumber b).validationCalls = 1 := by
  rcases hV : ValidatePRReference owner repo prNumber b.lookup with _ | e
  · rw [hV] at h
    simp at h
  · simp [processApproval, hV]

/-- C1 witness: a not-found pull request is a validation failure and
leads to zero approval attempts. -/
theorem validation_failure_prevents_approval_witness :
    (ValidatePRReference "acme" "widget" 42 PRLookup.notFound).isSome = true ∧
    (processApproval "acme" "widget" 42
      ⟨PRLookup.notFound, fun _ => ReviewOutcome.success 1,
       fun _ => false⟩).approvalAttempts = 0 :=
  ⟨rfl,
   (validation_failure_prevents_approval "acme" "widget" 42
     ⟨PRLookup.notFound, fun _ => ReviewOutcome.success 1, fun _ => false⟩
     rfl).1⟩

/-! ## Claim C2 -/

/-- C2: when the approval call fails with a transient (non-permanent)
error on all of the first 3 attempts, `ApprovePRWithRetry` returns the
last transient result with `success = false` and `retryAttempts = 3`,
making exactly 3 approval attempts — no 4th attempt. -/
theorem approveWithRetry_three_transient_failures
    (owner repo : String) (prNumber : Int)
    (outcomes : Nat → ReviewOutcome) (cancel : Nat → Bool)
    (hc : ∀ i, cancel i = false)
    (ht : ∀ i, i < 3 →
      (ApprovePR owner repo prNumber (outcomes i)).1.success = false ∧
      isPermanentError (ApprovePR owner repo prNumber (outcomes i)).1.error = false) :
    ApprovePRWithRetry owner repo prNumber outcomes cancel =
      (RetryOutcome.ok
        { (ApprovePR owner repo prNumber (outcomes 2)).1 with
            retryAttempts := 3 }, 3) ∧
    ({ (ApprovePR owner repo prNumber (outcomes 2)).1 with
        retryAttempts := 3 } : ApprovalResult).success = false ∧
    ({ (ApprovePR owner repo prNumber (outcomes 2)).1 with
        retryAttempts := 3 } : ApprovalResult).retryAttempts = 3 := by
  obtain ⟨hs0, hp0⟩ := ht 0 (by omega)
  obtain ⟨hs1, hp1⟩ := ht 1 (by omega)
  obtain ⟨hs2, hp2⟩ := ht 2 (by omega)
  refine ⟨?_, by simp [hs2], rfl⟩
  simp only [ApprovePRWithRetry, maxRetries, retryLoop, approvePR_snd_eq_none,
    hc, hs0, hp0, hs1, hp1, hs2, hp2, Bool.or_self, Bool.and_false,
    Bool.false_and, Bool.or_false, Bool.false_or, if_false]
  norm_num

/-- C2 witness: three identical transient failures produce the
exhaustion result with 3 attempts. -/
theorem approveWithRetry_three_transient_failures_witness :
    ApprovePRWithRetry "acme" "widget" 7
      (fun _ => ReviewOutcome.failure "boom" none) (fun _ => false) =
      (RetryOutcome.ok
        { (ApprovePR "acme" "widget" 7 (ReviewOutcome.failure "boom" none)).1 with
            retryAttempts := 3 }, 3) :=
  (approveWithRetry_three_transient_failures "acme" "widget" 7
    (fun _ => ReviewOutcome.failure "boom" none) (fun _ => false)
    (fun _ => rfl)
    (fun _ _ => ⟨rfl,
      (by decide : isPermanentError (ApprovePR "acme" "widget" 7
        (ReviewOutcome.failure "boom" none)).1.error = false)⟩)).1

/-! ## Claim C9 -/

/-- C9: a cancellation delivered during the backoff wait before attempt
`j` aborts `ApprovePRWithRetry` immediately: only the `j` attempts
already made are counted, no further attempt happens, and the outcome is
the cancellation — not a retry-exhaustion result. -/
theorem approveWithRetry_cancellation_aborts
    (owner repo : String) (prNumber : Int)
    (outcomes : Nat → ReviewOutcome) (cancel : Nat → Bool) (j : Nat)
    (hj0 : 0 < j) (hj3 : j < 3) (hcj : cancel j = true)
    (hbefore : ∀ i, i < j →
      (ApprovePR owner repo prNumber (outcomes i)).1.success = false ∧
      isPermanentError (ApprovePR owner repo prNumber (outcomes i)).1.error = false ∧
      (0 < i → cancel i = false)) :
    ApprovePRWithRetry owner repo prNumber outcomes cancel =
      (RetryOutcome.cancelled, j) := by
  interval_cases j
  · obtain ⟨hs0, hp0, -⟩ := hbefore 0 (by omega)
    simp only [ApprovePRWithRetry, maxRetries, retryLoop, approvePR_snd_eq_none,
      hs0, hp0, hcj, Bool.or_self, Bool.or_false, Bool.false_or, if_false]
    norm_num
  · obtain ⟨hs0, hp0, -⟩ := hbefore 0 (by omega)
    obtain ⟨hs1, hp1, hcl1⟩ := hbefore 1 (by omega)
    have hc1 : cancel 1 = false := hcl1 (by omega)
    simp only [ApprovePRWithRetry, maxRetries, retryLoop, approvePR_snd_eq_none,
      hs0, hp0, hs1, hp1, hc1, hcj, Bool.or_self, Bool.or_false, Bool.false_or,
      if_false]
    norm_num

/-- C9 witness: cancellation during the first backoff wait after one
transient failure yields the cancellation with exactly one attempt
made. -/
theorem approveWithRetry_cancellation_aborts_witness :
    ApprovePRWithRetry "acme" "widget" 7
      (fun _ => ReviewOutcome.failure "boom" none) (fun i => i == 1) =
      (RetryOutcome.cancelled, 1) :=
  approveWithRetry_cancellation_aborts "acme" "widget" 7
    (fun _ => ReviewOutcome.failure "boom" none) (fun i => i == 1) 1
    (by omega) (by omega) rfl
    (fun i hi => by
      interval_cases i
      exact ⟨rfl, by decide, fun hcontra => absurd hcontra (by omega)⟩)

/-! ## Claim C10 -/

/-- C10: `ApprovePR` never returns a Go error (both paths end in
`return result, nil`), so absent cancellation `ApprovePRWithRetry`
always ends in the `(result, nil)` case: the final
`return nil, fmt.Errorf(...)` branch of the retry loop is
unreachable. -/
theorem approveWithRetry_never_nil_result
    (owner repo : String) (prNumber : Int)
    (outcomes : Nat → ReviewOutcome) (cancel : Nat → Bool)
    (hc : ∀ i, cancel i = false) :
    (∀ out, (ApprovePR owner repo prNumber out).2 = none) ∧
    ∃ res, (ApprovePRWithRetry owner repo prNumber outcomes cancel).1 =
      RetryOutcome.ok res := by
  refine ⟨approvePR_snd_eq_none owner repo prNumber, ?_⟩
  cases hA : (ApprovePR owner repo prNumber (outcomes 0)).1.success ||
      isPermanentError (ApprovePR owner repo prNumber (outcomes 0)).1.error
  case true =>
    simp only [ApprovePRWithRetry, maxRetries, retryLoop, approvePR_snd_eq_none,
      hc, hA, Bool.and_false, if_false]
    norm_num
  case false =>
    rw [Bool.or_eq_false_iff] at hA
    cases hB : (ApprovePR owner repo prNumber (outcomes 1)).1.success ||
        isPermanentError (ApprovePR owner repo prNumber (outcomes 1)).1.error
    case true =>
      simp only [ApprovePRWithRetry, maxRetries, retryLoop, approvePR_snd_eq_none,
        hc, hA.1, hA.2, hB, Bool.and_false, Bool.or_false, if_false]
      norm_num
    case false =>
      rw [Bool.or_eq_false_iff] at hB
      cases hC : (ApprovePR owner repo prNumber (outcomes 2)).1.success ||
          isPermanentError (ApprovePR owner repo prNumber (outcomes 2)).1.error
      case true =>
        simp only [ApprovePRWithRetry, maxRetries, retryLoop,
          approvePR_snd_eq_none, hc, hA.1, hA.2, hB.1, hB.2, hC,
          Bool.and_false, Bool.or_false, if_false]
        norm_num
      case false =>
        rw [Bool.or_eq_false_iff] at hC
        simp only [ApprovePRWithRetry, maxRetries, retryLoop,
          approvePR_snd_eq_none, hc, hA.1, hA.2, hB.1, hB.2, hC.1, hC.2,
          Bool.and_false, Bool.or_false, Bool.or_self, if_false]
        norm_num

/-- C10 witness: an immediately successful approval ends in the
`(result, nil)` case. -/
theorem approveWithRetry_never_nil_result_witness :
    ∃ res, (ApprovePRWithRetry "acme" "widget" 7
      (fun _ => ReviewOutcome.success 5) (fun _ => false)).1 =
      RetryOutcome.ok res :=
  (approveWithRetry_never_nil_result "acme" "widget" 7
    (fun _ => ReviewOutcome.success 5) (fun _ => false) (fun _ => rfl)).2

/-! ## Claim C3 -/

/-- C3 counterexample: the `approval-failed` and `no-references-found`
phases are distinct kinds but are applied with the same emoji symbol
`"x"`, so the four kinds do not map to four pairwise distinct
symbols. -/
theorem reaction_symbols_not_pairwise_distinct :
    reactionEmoji ReactionKind.approvalFailed =
      reactionEmoji ReactionKind.noReferencesFound ∧
    ReactionKind.approvalFailed ≠ ReactionKind.noReferencesFound :=
  ⟨rfl, by decide⟩

/-- C3 amended: the four feedback kinds map to only three distinct
symbols — `eyes`, `white_check_mark` and `x` — with `approval-failed`
and `no-references-found` sharing `x`. -/
theorem reaction_symbol_table :
    reactionEmoji ReactionKind.processingStarted = "eyes" ∧
    reactionEmoji ReactionKind.approvalSucceeded = "white_check_mark" ∧
    reactionEmoji ReactionKind.approvalFailed = "x" ∧
    reactionEmoji ReactionKind.noReferencesFound = "x" ∧
    ("eyes" : String) ≠ "white_check_mark" ∧
    ("eyes" : String) ≠ "x" ∧
    ("white_check_mark" : String) ≠ "x" := by
  refine ⟨rfl, rfl, rfl, rfl, ?_, ?_, ?_⟩ <;> decide

/-! ## Claim C4 -/

/-- C4 counterexample: a reference whose validation fails ends with no
reaction at all on the source message — in particular not the failure
symbol. -/
theorem validation_failure_yields_no_reaction :
    (processApproval "acme" "widget" 42
      ⟨PRLookup.notFound, fun _ => ReviewOutcome.success 1,
       fun _ => false⟩).reaction = none ∧
    (none : Option String) ≠ some (reactionEmoji ReactionKind.approvalFailed) :=
  ⟨rfl, by decide⟩

/-- C4 amended: a dispatched approval applies the per-outcome reaction
(success or failure symbol) exactly when validation succeeds and the
retry returns a result; a reference whose validation fails ends with no
reaction applied. -/
theorem processApproval_reaction_policy
    (owner repo : String) (prNumber : Int) (b : GitHubBehavior) :
    ((ValidatePRReference owner repo prNumber b.lookup).isSome = true →
      (processApproval owner repo prNumber b).reaction = none) ∧
    (∀ res k, ValidatePRReference owner repo prNumber b.lookup = none →
      ApprovePRWithRetry owner repo prNumber b.reviews b.cancelDuringWait =
        (RetryOutcome.ok res, k) →
      (processApproval owner repo prNumber b).reaction =
        some (if res.success then "white_check_mark" else "x")) := by
  constructor
  · intro h
    rcases hV : ValidatePRReference owner repo prNumber b.lookup with _ | e
    · rw [hV] at h
      simp at h
    · simp [processApproval, hV]
  · intro res k hV hR
    simp [processApproval, hV, hR]

/-- C4 witness: validation failure applies no reaction; a successful
approval applies the success symbol. -/
theorem processApproval_reaction_policy_witness :
    (processApproval "acme" "widget" 42
      ⟨PRLookup.notFound, fun _ => ReviewOutcome.success 1,
       fun _ => false⟩).reaction = none ∧
    (processApproval "acme" "widget" 42
      ⟨PRLookup.found "open" false, fun _ => ReviewOutcome.success 1,
       fun _ => false⟩).reaction = some "white_check_mark" := by
  constructor
  · exact (processApproval_reaction_policy "acme" "widget" 42
      ⟨PRLookup.notFound, fun _ => ReviewOutcome.success 1, fun _ => false⟩).1 rfl
  · have h := (processApproval_reaction_policy "acme" "widget" 42
      ⟨PRLookup.found "open" false, fun _ => ReviewOutcome.success 1,
       fun _ => false⟩).2
      { success := true, reviewID := 1 } 1 rfl rfl
    simpa using h

/-! ## Claim C5 -/

/-- C5 counterexample: a pull-request URL whose host is written
`GitHub.com` is not recognized at all — the URL pattern is
case-sensitive in the host — contradicting the claim that any letter
case of the host is accepted. -/
theorem uppercase_host_url_not_extracted :
    ExtractPRReferences "https://GitHub.com/acme/widget/pull/42" = [] := rfl

/-- C5 amended: every URL-derived reference (one carrying a nonempty
source URL) has a URL that starts with the literal
`https://github.com/` — so secure-HTTP scheme and lowercase host — and
nonempty owner and repository; `http` URLs yield nothing, a URL with
host `GitHub.com` yields nothing, and a lowercase `https` URL yields a
fully populated reference. -/
theorem url_reference_extraction_policy :
    (∀ (text : String), ∀ r ∈ ExtractPRReferences text, r.url ≠ "" →
      (∃ t, r.url.data = "https://github.com/".data ++ t) ∧
      r.owner ≠ "" ∧ r.repository ≠ "") ∧
    ExtractPRReferences "http://github.com/acme/widget/pull/42" = [] ∧
    ExtractPRReferences "https://GitHub.com/acme/widget/pull/42" = [] ∧
    ExtractPRReferences "https://github.com/acme/widget/pull/42" =
      [⟨"acme", "widget", 42, "https://github.com/acme/widget/pull/42"⟩] := by
  refine ⟨?_, rfl, rfl, rfl⟩
  intro text
  have hbase : ∀ r ∈ processURLMatches
      (findAllURLMatches (text.data.length + 1) text.data) [],
      (r.url ≠ "" → (∃ t, r.url.data = "https://github.com/".data ++ t) ∧
        r.owner ≠ "" ∧ r.repository ≠ "") := by
    refine processURLMatches_mem _ _ [] (by simp) ?_
    intro m hm n hA hV
    obtain ⟨hfull, ho, hrp⟩ := findAllURLMatches_good _ _ m hm
    rcases hfull with hfull | hfull
    · rw [hfull] at hV
      exact absurd hV (validate_http_ne_none _)
    · intro _
      exact ⟨⟨_, by rw [data_mk, hfull]⟩, string_mk_ne_empty ho,
        string_mk_ne_empty hrp⟩
  exact processBareMatches_mem _
    (findAllBareMatches (text.data.length + 1) text.data) _ hbase
    (fun d n _ hne => absurd rfl hne)

/-- C5 witness: the lowercase `https` example reference is URL-derived,
its URL starts with `https://github.com/`, and it is fully populated. -/
theorem url_reference_extraction_policy_witness :
    (∃ t, ("https://github.com/acme/widget/pull/42" : String).data =
      "https://github.com/".data ++ t) ∧ ("acme" : String) ≠ "" := by
  have h := url_reference_extraction_policy.1
    "https://github.com/acme/widget/pull/42"
    ⟨"acme", "widget", 42, "https://github.com/acme/widget/pull/42"⟩
    (by decide) (by decide)
  exact ⟨h.1, h.2.1⟩

/-! ## Claim C6 -/

/-- C6 counterexample: the bare-reference pattern is case-sensitive in
`PR`: the text `pr-123` yields no reference at all, contradicting the
claim that a lowercase `pr` is recognized. -/
theorem lowercase_pr_not_extracted :
    ExtractPRReferences "pr-123" = [] ∧
    ExtractPRReferences "pr-123" ≠ [{ number := 123 }] := by
  exact ⟨rfl, by decide⟩

/-- C6 amended: bare references require an uppercase `PR` (or `#`):
`#123`, `PR-456` and `PR 789` each yield a reference with only the
number populated, while the lowercase `pr-123` yields nothing. -/
theorem bare_reference_extraction_uppercase :
    ExtractPRReferences "#123" = [{ number := 123 }] ∧
    ExtractPRReferences "PR-456" = [{ number := 456 }] ∧
    ExtractPRReferences "PR 789" = [{ number := 789 }] ∧
    ExtractPRReferences "pr-123" = [] :=
  ⟨rfl, rfl, rfl, rfl⟩

/-! ## Claim C7 -/

/-- C7 counterexample: two bare references with the same number (and no
URL-derived reference for that number) do not both appear — the second
is discarded against the first, leaving a single entry. -/
theorem duplicate_bare_references_collapse :
    ExtractPRReferences "#7 and #7" = [{ number := 7 }] ∧
    (ExtractPRReferences "#7 and #7").length = 1 :=
  ⟨rfl, rfl⟩

/-- C7 amended: duplicate URL matches with the same number yield
duplicate entries, and a bare-number reference is discarded whenever any
already-collected reference — URL-derived or an earlier bare one — has
the same number; so two equal bare references collapse to one. -/
theorem merge_deduplication_scope :
    ExtractPRReferences
        "https://github.com/a/b/pull/3 https://github.com/a/b/pull/3" =
      [⟨"a", "b", 3, "https://github.com/a/b/pull/3"⟩,
       ⟨"a", "b", 3, "https://github.com/a/b/pull/3"⟩] ∧
    ExtractPRReferences "https://github.com/a/b/pull/3 and #3" =
      [⟨"a", "b", 3, "https://github.com/a/b/pull/3"⟩] ∧
    ExtractPRReferences "#9 then #9" = [{ number := 9 }] :=
  ⟨rfl, rfl, rfl⟩

/-! ## Claim C8 -/

/-- C8 counterexample: the text `#0` yields a reference with number 0,
contradicting the claimed invariant `number > 0`. -/
theorem zero_pr_number_extracted :
    ExtractPRReferences "#0" = [{ number := 0 }] ∧
    ¬ (0 : Int) < ({ number := 0 } : PRReference).number :=
  ⟨rfl, by decide⟩

/-- C8 amended: every reference returned by `ExtractPRReferences`
satisfies `number ≥ 0` (numbers are parsed from digit runs); `number =
0` is possible, e.g. from `#0`. -/
theorem extracted_numbers_nonneg (text : String) :
    ∀ r ∈ ExtractPRReferences text, 0 ≤ r.number := by
  have hbase : ∀ r ∈ processURLMatches
      (findAllURLMatches (text.data.length + 1) text.data) [],
      (0 : Int) ≤ r.number := by
    refine processURLMatches_mem _ _ [] (by simp) ?_
    intro m hm n hA hV
    exact goAtoi_nonneg hA
  exact processBareMatches_mem _
    (findAllBareMatches (text.data.length + 1) text.data) _ hbase
    (fun d n hA => goAtoi_nonneg hA)

/-- C8 witness: the reference extracted from `#0` has a nonnegative
number. -/
theorem extracted_numbers_nonneg_witness :
    (0 : Int) ≤ ({ number := 0 } : PRReference).number :=
  extracted_numbers_nonneg "#0" { number := 0 } (by decide)

end Lgtm
